import Mathlib

/-!
Verification development for the NetPick repository: a shallow embedding of
the in-memory content cache (`src/lib/services/cache.ts`, class `NetPickCache`)
and the random picker (`RandomPickerService`, the cache-backed variant), with
theorems settling the specification's claims about them.

Conventions of the embedding:
* TypeScript numbers that hold ratings, weights and random draws are modelled
  as `ℚ`; timestamps (milliseconds) as `ℤ`; counts and sizes as `ℕ`.
* JavaScript truthiness on strings (`if (s)`) is modelled as `s ≠ ""`, and on
  optional strings as `≠ none` together with nonemptiness.
* `Map` objects are modelled as association lists in insertion order: `Map.set`
  replaces the value in place when the key is present and appends otherwise,
  exactly like the JS `Map` iteration order the code relies on.
* Randomness (`Math.random()`) is modelled by passing the drawn value (or the
  shuffled list, for `getRandomShows`) as an explicit argument.
* Asynchrony: a fire-and-forget `refreshPool(...)` call made by a read is not
  executed inside the read; the read instead reports (as a `Bool`) whether it
  started a background refresh, which models "triggers an asynchronous
  refresh" without blocking the read.
* Upstream page fetches are an oracle: a `List` of page outcomes, where
  `Except.error` marks a page whose fetch threw.
-/

namespace NetPick

/-- A normalized title (`NetflixShow` in `src/lib/types/netflix.ts`).
Only the fields read by the cache and the picker are modelled; `posterW480`
stands for `imageSet.verticalPoster.w480` (the one image the code checks),
and the unused metadata lists (genres, cast, …) are omitted. -/
structure NetflixShow where
  id : String
  title : String
  originalTitle : String
  overview : String
  showType : String
  rating : ℚ
  posterW480 : String
  netflixLink : Option String
  deriving DecidableEq

/-- JS truthiness of an optional string: `undefined`, `null` and `""` are falsy. -/
def optStrTruthy : Option String → Bool
  | none => false
  | some s => s ≠ ""

/-- JS `o || d` for an optional string: falsy (absent or empty) falls back to `d`. -/
def optStrOr (o : Option String) (d : String) : String :=
  match o with
  | none => d
  | some s => if s = "" then d else s

/-- The picker's hard quality filter (`selectRandomShow`, final `filter`):
`show.title && show.overview && show.netflixLink &&
 show.imageSet?.verticalPoster?.w480 && show.rating > 0`. -/
def hasQuality (s : NetflixShow) : Bool :=
  s.title ≠ "" && s.overview ≠ "" && optStrTruthy s.netflixLink &&
    s.posterW480 ≠ "" && decide (0 < s.rating)

/-! ## Weighted random selection (`RandomPickerService.weightedRandomSelection`) -/

/-- Per-show weight: `Math.max(show.rating || 50, 30)`; a rating of `0` is
falsy in JS, so it is replaced by `50` before the `max` with the floor `30`. -/
def weightOf (s : NetflixShow) : ℚ :=
  max (if s.rating = 0 then 50 else s.rating) 30

/-- The weight list computed at the top of `weightedRandomSelection`. -/
def weights (shows : List NetflixShow) : List ℚ :=
  shows.map weightOf

/-- `totalWeight = weights.reduce((sum, w) => sum + w, 0)`. -/
def totalWeight (shows : List NetflixShow) : ℚ :=
  (weights shows).sum

/-- The selection loop of `weightedRandomSelection`: `currentWeight` is the
accumulator `acc`; the first show whose cumulative weight reaches `r` is
returned, and if the loop falls through, the last show is returned
(`return shows[shows.length - 1]`). Empty input gives `none` (the TS code
would return `undefined`). -/
def selectLoop : List NetflixShow → ℚ → ℚ → Option NetflixShow
  | [], _, _ => none
  | s :: rest, r, acc =>
    if r ≤ acc + weightOf s then some s
    else
      match selectLoop rest r (acc + weightOf s) with
      | some t => some t
      | none => some s

/-- `weightedRandomSelection(shows)` with the drawn value
`random = Math.random() * totalWeight` passed explicitly as `r`. -/
def weightedRandomSelection (shows : List NetflixShow) (r : ℚ) : Option NetflixShow :=
  selectLoop shows r 0

/-- Modelled from the spec's words, for comparison with the source's
`weightedRandomSelection`: "pick the first candidate whose cumulative weight
meets or exceeds" the drawn value. Returns `none` when no cumulative weight
reaches `r`. -/
def specFirstCumulative : List NetflixShow → ℚ → ℚ → Option NetflixShow
  | [], _, _ => none
  | s :: rest, r, acc =>
    if r ≤ acc + weightOf s then some s
    else specFirstCumulative rest r (acc + weightOf s)

/-- The spec-side selection with the cumulative sum started at `0`. -/
def specSelect (shows : List NetflixShow) (r : ℚ) : Option NetflixShow :=
  specFirstCumulative shows r 0

theorem selectLoop_mem (shows : List NetflixShow) (r acc : ℚ) (h : shows ≠ []) :
    ∃ s, selectLoop shows r acc = some s ∧ s ∈ shows := by
  induction shows generalizing acc with
  | nil => exact absurd rfl h
  | cons a rest ih =>
    by_cases hr : r ≤ acc + weightOf a
    · exact ⟨a, by rw [selectLoop, if_pos hr], by simp⟩
    · cases rest with
      | nil =>
        refine ⟨a, ?_, by simp⟩
        rw [selectLoop, if_neg hr]
        rfl
      | cons b tl =>
        obtain ⟨s, hs, hmem⟩ := ih (acc + weightOf a) (by simp)
        refine ⟨s, ?_, by simp [hmem]⟩
        rw [selectLoop, if_neg hr, hs]

theorem selectLoop_eq_specFirstCumulative (shows : List NetflixShow) (r acc : ℚ)
    (h : r ≤ acc + totalWeight shows) :
    selectLoop shows r acc = specFirstCumulative shows r acc := by
  induction shows generalizing acc with
  | nil => rfl
  | cons a rest ih =>
    have htot : totalWeight (a :: rest) = weightOf a + totalWeight rest := by
      simp [totalWeight, weights]
    by_cases hr : r ≤ acc + weightOf a
    · simp only [selectLoop, specFirstCumulative, if_pos hr]
    · have hle : r ≤ acc + weightOf a + totalWeight rest := by
        rw [htot] at h
        linarith
      have hrec := ih (acc + weightOf a) hle
      cases rest with
      | nil =>
        exfalso
        simp only [totalWeight, weights, List.map_nil, List.sum_nil, add_zero] at hle
        exact hr hle
      | cons b tl =>
        obtain ⟨s, hs, _⟩ := selectLoop_mem (b :: tl) r (acc + weightOf a) (by simp)
        rw [selectLoop, specFirstCumulative, if_neg hr, if_neg hr, hs, ← hrec, hs]

/-! ## Cache (`NetPickCache` in `src/lib/services/cache.ts`) -/

/-- `CacheConfig` of `cache.ts`. -/
structure CacheConfig where
  poolSize : ℕ
  minPoolSize : ℕ
  ttlHours : ℕ
  refreshIntervalMs : ℕ
  deriving DecidableEq

/-- The defaults read from the environment: `CACHE_POOL_SIZE || "200"`,
`CACHE_MIN_POOL_SIZE || "50"`, `CACHE_TTL_HOURS || "6"`, six-hour interval. -/
def defaultCacheConfig : CacheConfig :=
  { poolSize := 200, minPoolSize := 50, ttlHours := 6,
    refreshIntervalMs := 6 * 60 * 60 * 1000 }

/-- `CachePool` of `src/lib/types/netflix.ts`. -/
structure CachePool where
  shows : List NetflixShow
  lastUpdate : ℤ
  country : String
  showType : String
  deriving DecidableEq

/-- `CacheMetadata` of `src/lib/types/netflix.ts`. -/
structure CacheMetadata where
  totalShows : ℕ
  lastGlobalRefresh : ℤ
  poolSizes : List (String × ℕ)
  hitRate : ℚ
  missCount : ℕ
  hitCount : ℕ
  deriving DecidableEq

/-- The mutable fields of `NetPickCache`: the pool map, the in-flight-refresh
set `isRefreshing`, and the metadata. Maps are association lists in insertion
order. -/
structure CacheState where
  pools : List (String × CachePool)
  isRefreshing : List String
  metadata : CacheMetadata
  deriving DecidableEq

/-- JS `Map.get`: the value at `k`, looked up in insertion order. -/
def lookupEntry {α : Type} : List (String × α) → String → Option α
  | [], _ => none
  | e :: rest, k => if e.1 = k then some e.2 else lookupEntry rest k

/-- JS `Map.set`: replace in place when the key is present (keeping its
position in iteration order), append at the end otherwise. -/
def setEntry {α : Type} (m : List (String × α)) (k : String) (v : α) :
    List (String × α) :=
  if (lookupEntry m k).isSome then
    m.map (fun e => if e.1 = k then (k, v) else e)
  else
    m ++ [(k, v)]

/-- `getPoolKey`: the template string `country-showTypeOrAny`. -/
def poolKey (country : String) (showType : Option String) : String :=
  country ++ "-" ++ optStrOr showType "any"

/-- `isPoolExpired`: `Date.now() - pool.lastUpdate > ttlHours * 3600_000`. -/
def isPoolExpired (cfg : CacheConfig) (now : ℤ) (pool : CachePool) : Bool :=
  decide ((cfg.ttlHours : ℤ) * 60 * 60 * 1000 < now - pool.lastUpdate)

/-- `recordCacheMiss`. -/
def recordMiss (st : CacheState) : CacheState :=
  { st with metadata := { st.metadata with missCount := st.metadata.missCount + 1 } }

/-- `recordCacheHit`. -/
def recordHit (st : CacheState) : CacheState :=
  { st with metadata := { st.metadata with hitCount := st.metadata.hitCount + 1 } }

/-- `getRandomShow`: the random index `Math.floor(Math.random() * len)` is the
explicit argument `i`. Returns the show (if any), the state after the hit/miss
counter update, and whether the call started a background `refreshPool` (the
fire-and-forget call is not executed inside the read; see the file header). -/
def getRandomShow (cfg : CacheConfig) (st : CacheState) (now : ℤ)
    (country : String) (showType : Option String) (i : ℕ) :
    Option NetflixShow × CacheState × Bool :=
  let key := poolKey country showType
  match lookupEntry st.pools key with
  | none => (none, recordMiss st, decide (key ∉ st.isRefreshing))
  | some pool =>
    if isPoolExpired cfg now pool || pool.shows.isEmpty then
      (none, recordMiss st, decide (key ∉ st.isRefreshing))
    else
      let trigger := decide (pool.shows.length < cfg.minPoolSize) &&
        decide (key ∉ st.isRefreshing)
      (pool.shows.get? i, recordHit st, trigger)

/-- `getRandomShows`: the shuffled copy `[...pool.shows].sort(() => …)` is the
explicit argument `shuffled` (a permutation of the pool in any legitimate run).
Returns the sampled list and whether the call started a background refresh;
the source contains no refresh call on any path of this method, so that flag
is `false` on every branch, and no counter is recorded either. -/
def getRandomShows (cfg : CacheConfig) (st : CacheState) (now : ℤ)
    (country : String) (showType : Option String) (count : ℕ)
    (shuffled : List NetflixShow) : List NetflixShow × Bool :=
  let key := poolKey country showType
  match lookupEntry st.pools key with
  | none => ([], false)
  | some pool =>
    if isPoolExpired cfg now pool || pool.shows.isEmpty then ([], false)
    else (shuffled.take (min count shuffled.length), false)

/-- One page returned by `streamingAvailabilityService.searchShows`
(`StreamingAvailabilitySearchResponse`). -/
structure SearchResult where
  shows : List NetflixShow
  hasMore : Bool
  nextCursor : Option String
  deriving DecidableEq

/-- A page fetch outcome: `Except.error` marks a `searchShows` call that threw
(caught by the inner `try`/`catch` of the refresh loop). -/
abbrev PageResult := Except Unit SearchResult

/-- `refreshPool`'s validity filter for fetched records: Netflix link, title,
overview and poster present (no rating requirement, unlike the picker). -/
def refreshValid (s : NetflixShow) : Bool :=
  optStrTruthy s.netflixLink && s.title ≠ "" && s.overview ≠ "" && s.posterW480 ≠ ""

/-- The page-collection loop of `refreshPool`: while fewer than `poolSize`
shows are collected and fewer than `maxAttempts = 10` non-terminal pages were
fetched, fetch the next page; a thrown page or an empty page breaks the loop,
keeping the shows collected so far. Returns the collected shows and the number
of pages fetched. Exhausting the oracle list behaves like a break. -/
def collectShows (cfg : CacheConfig) :
    List PageResult → ℕ → List NetflixShow → List NetflixShow × ℕ
  | [], _, acc => (acc, 0)
  | page :: rest, attempts, acc =>
    if acc.length < cfg.poolSize ∧ attempts < 10 then
      match page with
      | Except.error _ => (acc, 1)
      | Except.ok res =>
        if res.shows.isEmpty then (acc, 1)
        else
          let acc2 := acc ++ res.shows.filter refreshValid
          if res.hasMore && res.nextCursor.isSome then
            let next := collectShows cfg rest (attempts + 1) acc2
            (next.1, next.2 + 1)
          else (acc2, 1)
    else (acc, 0)

/-- `refreshPool(poolKey, country, showType)`: no-op when the key is already
in `isRefreshing`; otherwise marks the key, runs the collection loop over the
page oracle, installs the collected shows (truncated to `poolSize`) with a new
timestamp when at least one was collected (also updating the metadata), leaves
the pools untouched otherwise, and finally removes the marker. Returns the new
state and the number of upstream pages fetched. -/
def refreshPool (cfg : CacheConfig) (st : CacheState) (key country : String)
    (showType : Option String) (now : ℤ) (pages : List PageResult) :
    CacheState × ℕ :=
  if key ∈ st.isRefreshing then (st, 0)
  else
    let stMarked : CacheState := { st with isRefreshing := key :: st.isRefreshing }
    let collected := collectShows cfg pages 0 []
    let stUpdated : CacheState :=
      if collected.1.isEmpty then stMarked
      else
        let pool : CachePool :=
          { shows := collected.1.take cfg.poolSize, lastUpdate := now,
            country := country, showType := optStrOr showType "any" }
        let pools2 := setEntry stMarked.pools key pool
        { stMarked with
            pools := pools2,
            metadata := { stMarked.metadata with
              poolSizes := setEntry stMarked.metadata.poolSizes key pool.shows.length,
              totalShows := (pools2.map (fun e => e.2.shows.length)).sum } }
    ({ stUpdated with isRefreshing := stUpdated.isRefreshing.erase key },
      collected.2)

/-! ## Picker (`RandomPickerService`, cache-backed variant) -/

/-- `RandomPickerConfig` of `src/lib/types/netflix.ts`. -/
structure RandomPickerConfig where
  country : String
  showType : Option String
  excludeRecent : Option Bool
  minRating : Option ℚ
  deriving DecidableEq

/-- The mutable picker state: the per-user recent-picks map (insertion
order). -/
structure PickerState where
  recentPicks : List (String × List NetflixShow)
  deriving DecidableEq

/-- `maxRecentPicks = 20` ("Remember last 20 picks per user"). -/
def maxRecentPicks : ℕ := 20

/-- `getUserRecentPicks`: `this.recentPicks.get(userId) || []`. -/
def getUserRecentPicks (pst : PickerState) (userId : String) : List NetflixShow :=
  (lookupEntry pst.recentPicks userId).getD []

/-- `cleanupOldPicks`: when the map holds more than 1000 users, rebuild it
from `Array.from(entries)` after `entries.splice(500)`, i.e. from the first
500 entries in insertion order. -/
def cleanupOldPicks (m : List (String × List NetflixShow)) :
    List (String × List NetflixShow) :=
  if 1000 < m.length then m.take 500 else m

/-- `trackUserPick`: ensure the user's entry exists, `unshift` the show, keep
only the first `maxRecentPicks` entries, then run `cleanupOldPicks`. -/
def trackUserPick (pst : PickerState) (userId : String) (s : NetflixShow) :
    PickerState :=
  let old := getUserRecentPicks pst userId
  let updated := (s :: old).take maxRecentPicks
  { recentPicks := cleanupOldPicks (setEntry pst.recentPicks userId updated) }

/-- The `filteredCandidates` pipeline of `selectRandomShow`: the min-rating
filter when `minRating` is truthy (present and nonzero), the recent-pick
exclusion when `excludeRecent` (defaulting to `true`) and `userId` are both
truthy, then the hard quality filter. -/
def filteredCandidates (pst : PickerState) (config : RandomPickerConfig)
    (userId : Option String) (candidates : List NetflixShow) :
    List NetflixShow :=
  let f1 :=
    match config.minRating with
    | some m => if m ≠ 0 then
        candidates.filter (fun (s : NetflixShow) => decide (m ≤ s.rating))
      else candidates
    | none => candidates
  let f2 :=
    match userId with
    | some uid =>
      if config.excludeRecent.getD true && uid ≠ "" then
        let recentIds := (getUserRecentPicks pst uid).map
          (fun (s : NetflixShow) => s.id)
        f1.filter (fun (s : NetflixShow) => !(recentIds.contains s.id))
      else f1
    | none => f1
  f2.filter hasQuality

/-- `selectRandomShow` with the cache read abstracted: `candidates` is the
list the two `netPickCache.getRandomShows` calls produced, and `r` is the
random draw handed to `weightedRandomSelection`. -/
def selectRandomShow (pst : PickerState) (config : RandomPickerConfig)
    (userId : Option String) (candidates : List NetflixShow) (r : ℚ) :
    Option NetflixShow :=
  if candidates.isEmpty then none
  else
    let f3 := filteredCandidates pst config userId candidates
    if f3.isEmpty then none else weightedRandomSelection f3 r

/-- The fallback configuration of `discover`:
`{ ...config, excludeRecent: false, minRating: undefined }`. -/
def relaxConfig (config : RandomPickerConfig) : RandomPickerConfig :=
  { config with excludeRecent := some false, minRating := none }

/-- The error message thrown when both passes fail. -/
def noContentMessage (config : RandomPickerConfig) : String :=
  "No Netflix " ++ optStrOr config.showType "content" ++ " found for " ++
    config.country

/-- `discover`: strict pass, then one relaxed retry, else the thrown error.
`cands1`/`r1` feed the strict `selectRandomShow` call and `cands2`/`r2` the
fallback call. On a strict-pass success with a truthy `userId` the pick is
tracked and the response carries `fromCache = true`; a fallback success is
returned with `fromCache = false` and is not tracked. -/
def discover (pst : PickerState) (config : RandomPickerConfig)
    (userId : Option String) (cands1 cands2 : List NetflixShow) (r1 r2 : ℚ) :
    Except String (NetflixShow × Bool) × PickerState :=
  match selectRandomShow pst config userId cands1 r1 with
  | some s =>
    let pst' :=
      match userId with
      | some uid => if uid ≠ "" then trackUserPick pst uid s else pst
      | none => pst
    (Except.ok (s, true), pst')
  | none =>
    match selectRandomShow pst (relaxConfig config) userId cands2 r2 with
    | some fb => (Except.ok (fb, false), pst)
    | none => (Except.error (noContentMessage config), pst)

/-- The candidate-gathering step of `selectRandomShow`: for a falsy or `"any"`
`showType`, 10 movies plus 10 series; otherwise 20 shows of the requested
type. The shuffled pool copies used by the underlying `getRandomShows` calls
are the explicit arguments `sh1`/`sh2` (`sh2` is only consulted on the mixed
branch). -/
def gatherCandidates (cfg : CacheConfig) (cache : CacheState) (now : ℤ)
    (config : RandomPickerConfig) (sh1 sh2 : List NetflixShow) :
    List NetflixShow :=
  match config.showType with
  | none =>
    (getRandomShows cfg cache now config.country (some "movie") 10 sh1).1 ++
      (getRandomShows cfg cache now config.country (some "series") 10 sh2).1
  | some t =>
    if t = "any" ∨ t = "" then
      (getRandomShows cfg cache now config.country (some "movie") 10 sh1).1 ++
        (getRandomShows cfg cache now config.country (some "series") 10 sh2).1
    else
      (getRandomShows cfg cache now config.country (some t) 20 sh1).1

/-- `discover` composed with the cache reads of its two `selectRandomShow`
passes: the strict pass reads with shuffles `sh1`/`sh2`, the fallback pass
reads afresh with shuffles `sh1'`/`sh2'`. -/
def discoverFromCache (cfg : CacheConfig) (cache : CacheState)
    (pst : PickerState) (config : RandomPickerConfig) (userId : Option String)
    (now : ℤ) (sh1 sh2 sh1' sh2' : List NetflixShow) (r1 r2 : ℚ) :
    Except String (NetflixShow × Bool) × PickerState :=
  discover pst config userId
    (gatherCandidates cfg cache now config sh1 sh2)
    (gatherCandidates cfg cache now config sh1' sh2') r1 r2

/-! ## Helper lemmas -/

theorem lookupEntry_map_update_self {α : Type} (m : List (String × α))
    (k : String) (v : α) (h : (lookupEntry m k).isSome) :
    lookupEntry (m.map (fun e => if e.1 = k then (k, v) else e)) k = some v := by
  induction m with
  | nil => simp [lookupEntry] at h
  | cons e rest ih =>
    by_cases he : e.1 = k
    · simp [lookupEntry, he]
    · simp only [lookupEntry, if_neg he] at h
      simp only [List.map_cons, if_neg he, lookupEntry, if_neg he]
      exact ih h

theorem lookupEntry_append_single_self {α : Type} (m : List (String × α))
    (k : String) (v : α) (h : lookupEntry m k = none) :
    lookupEntry (m ++ [(k, v)]) k = some v := by
  induction m with
  | nil => simp [lookupEntry]
  | cons e rest ih =>
    by_cases he : e.1 = k
    · simp [lookupEntry, he] at h
    · simp only [lookupEntry, if_neg he] at h
      simp only [List.cons_append, lookupEntry, if_neg he]
      exact ih h

theorem lookupEntry_map_update_ne {α : Type} (m : List (String × α))
    (k k' : String) (v : α) (h : k' ≠ k) :
    lookupEntry (m.map (fun e => if e.1 = k then (k, v) else e)) k' =
      lookupEntry m k' := by
  induction m with
  | nil => rfl
  | cons e rest ih =>
    by_cases he : e.1 = k
    · have hhead : (if e.1 = k then (k, v) else e) = (k, v) := if_pos he
      have hk' : ¬((k, v).1 = k') := fun hh => h hh.symm
      have hek' : ¬(e.1 = k') := fun hh => h (hh ▸ he)
      simp only [List.map_cons, hhead, lookupEntry, if_neg hk', if_neg hek']
      exact ih
    · simp only [List.map_cons, if_neg he, lookupEntry]
      by_cases he' : e.1 = k'
      · simp [he']
      · simp only [if_neg he']
        exact ih

theorem lookupEntry_append_single_ne {α : Type} (m : List (String × α))
    (k k' : String) (v : α) (h : k' ≠ k) :
    lookupEntry (m ++ [(k, v)]) k' = lookupEntry m k' := by
  induction m with
  | nil =>
    simp only [List.nil_append, lookupEntry,
      if_neg (show ¬(((k, v) : String × α).1 = k') from fun hh => h hh.symm)]
  | cons e rest ih =>
    by_cases he' : e.1 = k'
    · simp [lookupEntry, he']
    · simp only [List.cons_append, lookupEntry, if_neg he']
      exact ih

theorem lookupEntry_setEntry_self {α : Type} (m : List (String × α))
    (k : String) (v : α) : lookupEntry (setEntry m k v) k = some v := by
  unfold setEntry
  split
  · rename_i hsome
    exact lookupEntry_map_update_self m k v hsome
  · rename_i hnone
    exact lookupEntry_append_single_self m k v
      (Option.not_isSome_iff_eq_none.mp hnone)

theorem lookupEntry_setEntry_ne {α : Type} (m : List (String × α))
    (k k' : String) (v : α) (h : k' ≠ k) :
    lookupEntry (setEntry m k v) k' = lookupEntry m k' := by
  unfold setEntry
  split
  · exact lookupEntry_map_update_ne m k k' v h
  · exact lookupEntry_append_single_ne m k k' v h

theorem setEntry_length_le {α : Type} (m : List (String × α)) (k : String)
    (v : α) : (setEntry m k v).length ≤ m.length + 1 := by
  unfold setEntry
  split
  · simp
  · simp

theorem mem_setEntry {α : Type} (m : List (String × α)) (k : String) (v : α)
    (e : String × α) (h : e ∈ setEntry m k v) : e ∈ m ∨ e = (k, v) := by
  unfold setEntry at h
  split at h
  · obtain ⟨x, hx, hxe⟩ := List.mem_map.mp h
    by_cases hk : x.1 = k
    · right
      rw [← hxe]
      simp [hk]
    · left
      rw [← hxe]
      simp only [if_neg hk]
      exact hx
  · rcases List.mem_append.mp h with h1 | h2
    · exact Or.inl h1
    · right
      simpa using h2

/-- Everything after the first erroring page is irrelevant, and the error page
itself contributes nothing: the loop keeps exactly the shows collected before
the error. -/
theorem collectShows_stops_at_error (cfg : CacheConfig) (good rest : List PageResult)
    (attempts : ℕ) (acc : List NetflixShow) :
    (collectShows cfg (good ++ Except.error () :: rest) attempts acc).1 =
      (collectShows cfg good attempts acc).1 := by
  induction good generalizing attempts acc with
  | nil =>
    simp only [List.nil_append, collectShows]
    split
    · rfl
    · rfl
  | cons page tl ih =>
    simp only [List.cons_append, collectShows]
    split
    · match page with
      | Except.error _ => rfl
      | Except.ok res =>
        by_cases hempty : res.shows.isEmpty
        · simp [hempty]
        · simp only [hempty, if_false, Bool.false_eq_true]
          by_cases hmore : res.hasMore && res.nextCursor.isSome
          · simp [hmore, ih]
          · simp [hmore]
    · rfl

theorem getUserRecentPicks_setEntry_self (m : List (String × List NetflixShow))
    (uid : String) (v : List NetflixShow) :
    lookupEntry (setEntry m uid v) uid = some v :=
  lookupEntry_setEntry_self m uid v

instance {ε α : Type} [DecidableEq ε] [DecidableEq α] :
    DecidableEq (Except ε α) := fun x y =>
  match x, y with
  | Except.error a, Except.error b =>
    if h : a = b then isTrue (congrArg Except.error h)
    else isFalse (fun hh => h (Except.error.inj hh))
  | Except.ok a, Except.ok b =>
    if h : a = b then isTrue (congrArg Except.ok h)
    else isFalse (fun hh => h (Except.ok.inj hh))
  | Except.error _, Except.ok _ => isFalse (fun hh => Except.noConfusion hh)
  | Except.ok _, Except.error _ => isFalse (fun hh => Except.noConfusion hh)

theorem weightedRandomSelection_singleton (s : NetflixShow) (r : ℚ) :
    weightedRandomSelection [s] r = some s := by
  rw [weightedRandomSelection, selectLoop]
  split
  · rfl
  · rfl

theorem weightedRandomSelection_mem (shows : List NetflixShow) (r : ℚ)
    (s : NetflixShow) (h : weightedRandomSelection shows r = some s) :
    s ∈ shows := by
  cases shows with
  | nil =>
    rw [weightedRandomSelection] at h
    exact Option.noConfusion h
  | cons a rest =>
    obtain ⟨t, ht, hmem⟩ := selectLoop_mem (a :: rest) r 0 (by simp)
    rw [weightedRandomSelection, ht] at h
    exact Option.some.inj h ▸ hmem

theorem weightOf_pos (s : NetflixShow) : 0 < weightOf s :=
  lt_of_lt_of_le (by norm_num) (le_max_right _ 30)

theorem totalWeight_nonneg (shows : List NetflixShow) : 0 ≤ totalWeight shows := by
  refine List.sum_nonneg ?_
  intro w hw
  obtain ⟨s, _, hs⟩ := List.mem_map.mp hw
  exact hs ▸ le_of_lt (weightOf_pos s)

/-- When the draw exceeds the whole cumulative weight, the loop falls through
to the last element. -/
theorem selectLoop_getLast (shows : List NetflixShow) (r acc : ℚ)
    (h : acc + totalWeight shows < r) :
    selectLoop shows r acc = shows.getLast? := by
  induction shows generalizing acc with
  | nil => rfl
  | cons a rest ih =>
    have htot : totalWeight (a :: rest) = weightOf a + totalWeight rest := by
      simp [totalWeight, weights]
    rw [htot] at h
    have hrest := totalWeight_nonneg rest
    have hr : ¬r ≤ acc + weightOf a := by
      push_neg
      linarith
    cases rest with
    | nil =>
      rw [selectLoop, if_neg hr]
      rfl
    | cons b tl =>
      have hrec := ih (acc + weightOf a) (by linarith)
      obtain ⟨s, hs, _⟩ := selectLoop_mem (b :: tl) r (acc + weightOf a) (by simp)
      rw [selectLoop, if_neg hr, hs, List.getLast?_cons_cons, ← hrec, hs]

/-! ## Concrete titles used by witnesses and counterexamples -/

/-- A fully valid movie rated 90. -/
def showA : NetflixShow :=
  { id := "a", title := "Movie A", originalTitle := "Movie A",
    overview := "plot", showType := "movie", rating := 90,
    posterW480 := "img", netflixLink := some "nf" }

/-- A fully valid movie rated 60. -/
def showB : NetflixShow :=
  { id := "b", title := "Movie B", originalTitle := "Movie B",
    overview := "plot", showType := "movie", rating := 60,
    posterW480 := "img", netflixLink := some "nf" }

/-- A fully valid movie rated 10. -/
def showC : NetflixShow :=
  { id := "c", title := "Movie C", originalTitle := "Movie C",
    overview := "plot", showType := "movie", rating := 10,
    posterW480 := "img", netflixLink := some "nf" }

/-- A fully valid movie rated 40 (below a 50 minimum-rating request). -/
def showB40 : NetflixShow :=
  { id := "b40", title := "Movie B40", originalTitle := "Movie B40",
    overview := "plot", showType := "movie", rating := 40,
    posterW480 := "img", netflixLink := some "nf" }

/-- A movie with complete metadata but rating 0: it passes `refreshPool`'s
validity filter (which never looks at the rating) yet fails the picker's hard
quality filter (`rating > 0`). -/
def showZ : NetflixShow :=
  { id := "z", title := "Movie Z", originalTitle := "Movie Z",
    overview := "plot", showType := "movie", rating := 0,
    posterW480 := "img", netflixLink := some "nf" }

/-- A fully valid movie rated 80, the title a user was just shown. -/
def showX : NetflixShow :=
  { id := "x", title := "Movie X", originalTitle := "Movie X",
    overview := "plot", showType := "movie", rating := 80,
    posterW480 := "img", netflixLink := some "nf" }

/-- A fully valid movie rated 70, an eligible alternative in the pool. -/
def showY : NetflixShow :=
  { id := "y", title := "Movie Y", originalTitle := "Movie Y",
    overview := "plot", showType := "movie", rating := 70,
    posterW480 := "img", netflixLink := some "nf" }

/-- The n-th of a family of rating-0 pool fillers: complete metadata (so they
sit legitimately in a refreshed pool) but zero rating (so the picker's quality
filter rejects them). -/
def junkShow (n : ℕ) : NetflixShow :=
  { id := "junk" ++ toString n, title := "Junk", originalTitle := "Junk",
    overview := "plot", showType := "movie", rating := 0,
    posterW480 := "img", netflixLink := some "nf" }

/-! ## Claims -/

/-- C10: for every non-empty input list, `weightedRandomSelection` is total
and returns an element of that list, for every real draw `r` — including
draws beyond the final cumulative weight, where the fallback returns the last
element. -/
theorem C10_selection_total (shows : List NetflixShow) (r : ℚ)
    (h : shows ≠ []) :
    (∃ s, weightedRandomSelection shows r = some s ∧ s ∈ shows) ∧
      (totalWeight shows < r → weightedRandomSelection shows r = shows.getLast?) :=
  ⟨selectLoop_mem shows r 0 h,
    fun hgt => selectLoop_getLast shows r 0 (by linarith)⟩

theorem C10_selection_total_witness :
    (∃ s, weightedRandomSelection [showA, showB] 1000000 = some s ∧
        s ∈ [showA, showB]) ∧
      (totalWeight [showA, showB] < 1000000 →
        weightedRandomSelection [showA, showB] 1000000 = [showA, showB].getLast?) :=
  C10_selection_total [showA, showB] 1000000 (by decide)

/-- C2: on every candidate list actually passed to `weightedRandomSelection`
(the caller filters to `rating > 0`, hence the positivity hypothesis), each
weight is the rating floored at 30; for every draw in `[0, totalWeight)` the
function agrees with the spec's "first candidate whose cumulative weight meets
or exceeds the draw"; and for three candidates rated 90/60/10 the effective
weights are 90/60/30 out of 180, with the rating-90 candidate selected exactly
on the sub-interval `r ≤ 90` — half of the draw interval. -/
theorem C2_weighted_selection :
    (∀ shows : List NetflixShow, (∀ s ∈ shows, 0 < s.rating) →
      weights shows = shows.map (fun s => max s.rating 30)) ∧
    (∀ (shows : List NetflixShow) (r : ℚ), 0 ≤ r → r < totalWeight shows →
      weightedRandomSelection shows r = specSelect shows r) ∧
    (∀ (a b c : NetflixShow) (r : ℚ), a.rating = 90 → b.rating = 60 →
      c.rating = 10 → 0 ≤ r → r < 180 →
      weights [a, b, c] = [90, 60, 30] ∧ totalWeight [a, b, c] = 180 ∧
      (weightedRandomSelection [a, b, c] r = some a ↔ r ≤ 90)) := by
  refine ⟨?_, ?_, ?_⟩
  · intro shows hpos
    induction shows with
    | nil => rfl
    | cons s rest ih =>
      have hs : s.rating ≠ 0 := ne_of_gt (hpos s (by simp))
      have hrest := ih (fun t ht => hpos t (List.mem_cons_of_mem s ht))
      simp only [weights, List.map_cons] at hrest ⊢
      rw [weightOf, if_neg hs, hrest]
  · intro shows r _ hlt
    exact selectLoop_eq_specFirstCumulative shows r 0 (by linarith)
  · intro a b c r ha hb hc _ hlt
    have hwa : weightOf a = 90 := by rw [weightOf, ha]; norm_num
    have hwb : weightOf b = 60 := by rw [weightOf, hb]; norm_num
    have hwc : weightOf c = 30 := by rw [weightOf, hc]; norm_num
    refine ⟨?_, ?_, ?_⟩
    · simp [weights, hwa, hwb, hwc]
    · simp [totalWeight, weights, hwa, hwb, hwc]
      norm_num
    · constructor
      · intro hsel
        by_contra hgt
        have h1 : ¬r ≤ 0 + weightOf a := by rw [hwa, zero_add]; exact hgt
        rw [weightedRandomSelection, selectLoop, if_neg h1] at hsel
        by_cases h2 : r ≤ 0 + weightOf a + weightOf b
        · rw [selectLoop, if_pos h2] at hsel
          have hba : b = a := Option.some.inj hsel
          have : b.rating = a.rating := congrArg NetflixShow.rating hba
          rw [ha, hb] at this
          norm_num at this
        · have e3 : selectLoop [c] r (0 + weightOf a + weightOf b) = some c := by
            by_cases h3 : r ≤ 0 + weightOf a + weightOf b + weightOf c
            · rw [selectLoop, if_pos h3]
            · rw [selectLoop, if_neg h3]
              rfl
          rw [selectLoop, if_neg h2, e3] at hsel
          have hca : c = a := Option.some.inj hsel
          have : c.rating = a.rating := congrArg NetflixShow.rating hca
          rw [ha, hc] at this
          norm_num at this
      · intro hle
        have h1 : r ≤ 0 + weightOf a := by rw [hwa, zero_add]; exact hle
        rw [weightedRandomSelection, selectLoop, if_pos h1]

theorem C2_weighted_selection_witness :
    weights [showA, showB, showC] = [90, 60, 30] ∧
    weightedRandomSelection [showA, showB, showC] 100 =
      specSelect [showA, showB, showC] 100 ∧
    (weightedRandomSelection [showA, showB, showC] 80 = some showA ↔
      (80 : ℚ) ≤ 90) := by
  have h3 := C2_weighted_selection.2.2 showA showB showC 80 rfl rfl rfl
    (by norm_num) (by norm_num)
  have h380 := C2_weighted_selection.2.2 showA showB showC 100 rfl rfl rfl
    (by norm_num) (by norm_num)
  refine ⟨h3.1, ?_, h3.2.2⟩
  exact C2_weighted_selection.2.1 [showA, showB, showC] 100 (by norm_num)
    (by rw [h380.2.1]; norm_num)

/-- The empty picker state (a fresh `RandomPickerService`). -/
def pstEmpty : PickerState := { recentPicks := [] }

/-- Metadata of a fresh `NetPickCache`, counters at zero. -/
def metadata0 : CacheMetadata :=
  { totalShows := 0, lastGlobalRefresh := 0, poolSizes := [], hitRate := 0,
    missCount := 0, hitCount := 0 }

/-- A request for a movie in `us` with a minimum rating of 50 and recent-pick
exclusion on. -/
def configC1 : RandomPickerConfig :=
  { country := "us", showType := some "movie", excludeRecent := some true,
    minRating := some 50 }

/-- A cache whose `us-movie` pool holds exactly one show, `showZ` (complete
metadata, rating 0), freshly refreshed at time 0. -/
def cacheC1 : CacheState :=
  { pools := [("us-movie",
      { shows := [showZ], lastUpdate := 0, country := "us",
        showType := "movie" })],
    isRefreshing := [], metadata := metadata0 }

/-- C1, counterexample: with a non-empty pool read (`[showZ]`) whose only
candidate is killed by the min-rating filter in the strict pass and by the
hard quality filter (`rating > 0`) in the relaxed pass, `discover` fails with
the "no content found" error instead of returning a title. -/
theorem C1_counterexample :
    gatherCandidates defaultCacheConfig cacheC1 0 configC1 [showZ] [] =
        [showZ] ∧
    [showZ].filter (fun s => decide ((50 : ℚ) ≤ s.rating)) = [] ∧
    (discoverFromCache defaultCacheConfig cacheC1 pstEmpty configC1
        (some "u1") 0 [showZ] [] [showZ] [] 0 0).1 =
      Except.error "No Netflix movie found for us" := by
  refine ⟨by decide, by decide, by decide⟩

/-- C1, amended: `discover` retries exactly once, with `excludeRecent`
disabled and `minRating` removed but the country, type and hard quality
filter unchanged; it fails with the "no content found" error only when both
the strict pass and the relaxed retry yield no candidate, and succeeds
whenever the relaxed retry yields one. -/
theorem C1_relaxed_retry (pst : PickerState) (config : RandomPickerConfig)
    (userId : Option String) (cands1 cands2 : List NetflixShow) (r1 r2 : ℚ) :
    ((relaxConfig config).excludeRecent = some false ∧
      (relaxConfig config).minRating = none ∧
      (relaxConfig config).country = config.country ∧
      (relaxConfig config).showType = config.showType) ∧
    (∀ e, (discover pst config userId cands1 cands2 r1 r2).1 = Except.error e →
      selectRandomShow pst config userId cands1 r1 = none ∧
      selectRandomShow pst (relaxConfig config) userId cands2 r2 = none ∧
      e = noContentMessage config) ∧
    (∀ s, selectRandomShow pst (relaxConfig config) userId cands2 r2 = some s →
      ∃ t b, (discover pst config userId cands1 cands2 r1 r2).1 =
        Except.ok (t, b)) := by
  refine ⟨⟨rfl, rfl, rfl, rfl⟩, ?_, ?_⟩
  · intro e he
    cases h1 : selectRandomShow pst config userId cands1 r1 with
    | some s => simp [discover, h1] at he
    | none =>
      cases h2 : selectRandomShow pst (relaxConfig config) userId cands2 r2 with
      | some s => simp [discover, h1, h2] at he
      | none =>
        simp only [discover, h1, h2] at he
        exact ⟨rfl, rfl, (Except.error.inj he).symm⟩
  · intro s hs
    cases h1 : selectRandomShow pst config userId cands1 r1 with
    | some t => exact ⟨t, true, by simp [discover, h1]⟩
    | none => exact ⟨s, false, by simp [discover, h1, hs]⟩

theorem C1_relaxed_retry_witness :
    selectRandomShow pstEmpty configC1 (some "u1") [showZ] 0 = none ∧
    selectRandomShow pstEmpty (relaxConfig configC1) (some "u1") [showZ] 0 =
      none := by
  have h := (C1_relaxed_retry pstEmpty configC1 (some "u1") [showZ] [showZ]
    0 0).2.1 "No Netflix movie found for us" (by decide)
  exact ⟨h.1, h.2.1⟩

/-- C8, counterexample: a `discover` call that succeeds through the relaxed
retry (strict pass empty because `showB40`'s rating 40 is below the requested
minimum 50) returns the title but leaves the user's pick history completely
untouched — the fallback branch of `discover` never calls `trackUserPick`. -/
theorem C8_counterexample :
    discover pstEmpty configC1 (some "u1") [showB40] [showB40] 0 0 =
      (Except.ok (showB40, false), pstEmpty) ∧
    lookupEntry (discover pstEmpty configC1 (some "u1") [showB40] [showB40]
        0 0).2.recentPicks "u1" = none := by
  have hstrict : selectRandomShow pstEmpty configC1 (some "u1") [showB40] 0 =
      none := by decide
  have h3 : filteredCandidates pstEmpty (relaxConfig configC1) (some "u1")
      [showB40] = [showB40] := by decide
  have hfall : selectRandomShow pstEmpty (relaxConfig configC1) (some "u1")
      [showB40] 0 = some showB40 := by
    simp [selectRandomShow, h3, weightedRandomSelection_singleton]
  have hd : discover pstEmpty configC1 (some "u1") [showB40] [showB40] 0 0 =
      (Except.ok (showB40, false), pstEmpty) := by
    simp [discover, hstrict, hfall]
  exact ⟨hd, by rw [hd]; rfl⟩

/-- C8, amended: only strict-pass successes with a truthy `userId` are
recorded: the chosen title is prepended and the history truncated to
`maxRecentPicks`, so it is newest-first with length at most 20 (as long as
the user map is below the cleanup bound, which would otherwise discard whole
users); fallback successes leave the picker state unchanged; and every
history's length stays at most `maxRecentPicks` across any `discover` call. -/
theorem C8_history_tracking :
    (∀ (pst : PickerState) (config : RandomPickerConfig) (uid : String)
      (cands1 cands2 : List NetflixShow) (r1 r2 : ℚ) (s : NetflixShow),
      uid ≠ "" → pst.recentPicks.length < 1000 →
      selectRandomShow pst config (some uid) cands1 r1 = some s →
      getUserRecentPicks
          (discover pst config (some uid) cands1 cands2 r1 r2).2 uid =
        (s :: getUserRecentPicks pst uid).take maxRecentPicks ∧
      (getUserRecentPicks
          (discover pst config (some uid) cands1 cands2 r1 r2).2 uid).head? =
        some s ∧
      (getUserRecentPicks
          (discover pst config (some uid) cands1 cands2 r1 r2).2 uid).length ≤
        maxRecentPicks) ∧
    (∀ (pst : PickerState) (config : RandomPickerConfig)
      (userId : Option String) (cands1 cands2 : List NetflixShow) (r1 r2 : ℚ)
      (s : NetflixShow),
      selectRandomShow pst config userId cands1 r1 = none →
      selectRandomShow pst (relaxConfig config) userId cands2 r2 = some s →
      (discover pst config userId cands1 cands2 r1 r2).2 = pst) ∧
    (∀ (pst : PickerState) (config : RandomPickerConfig)
      (userId : Option String) (cands1 cands2 : List NetflixShow) (r1 r2 : ℚ),
      (∀ e ∈ pst.recentPicks, e.2.length ≤ maxRecentPicks) →
      ∀ e ∈ (discover pst config userId cands1 cands2 r1 r2).2.recentPicks,
        e.2.length ≤ maxRecentPicks) := by
  refine ⟨?_, ?_, ?_⟩
  · intro pst config uid cands1 cands2 r1 r2 s huid hsmall h1
    have hstate : (discover pst config (some uid) cands1 cands2 r1 r2).2 =
        trackUserPick pst uid s := by
      simp [discover, h1, huid]
    have hsetlen : (setEntry pst.recentPicks uid
        ((s :: getUserRecentPicks pst uid).take maxRecentPicks)).length ≤
        pst.recentPicks.length + 1 := setEntry_length_le _ _ _
    have hclean : cleanupOldPicks (setEntry pst.recentPicks uid
        ((s :: getUserRecentPicks pst uid).take maxRecentPicks)) =
        setEntry pst.recentPicks uid
          ((s :: getUserRecentPicks pst uid).take maxRecentPicks) := by
      rw [cleanupOldPicks, if_neg]
      omega
    have hlook : getUserRecentPicks (trackUserPick pst uid s) uid =
        (s :: getUserRecentPicks pst uid).take maxRecentPicks := by
      rw [trackUserPick]
      show (lookupEntry _ uid).getD [] = _
      rw [hclean, lookupEntry_setEntry_self]
      rfl
    rw [hstate, hlook]
    refine ⟨rfl, ?_, ?_⟩
    · rw [show maxRecentPicks = 19 + 1 from rfl, List.take_succ_cons]
      rfl
    · exact le_trans (List.length_take_le _ _) (le_refl _)
  · intro pst config userId cands1 cands2 r1 r2 s h1 h2
    simp [discover, h1, h2]
  · intro pst config userId cands1 cands2 r1 r2 hinv e he
    cases h1 : selectRandomShow pst config userId cands1 r1 with
    | none =>
      cases h2 : selectRandomShow pst (relaxConfig config) userId cands2 r2 with
      | none =>
        simp only [discover, h1, h2] at he
        exact hinv e he
      | some s =>
        simp only [discover, h1, h2] at he
        exact hinv e he
    | some s =>
      simp only [discover, h1] at he
      cases userId with
      | none => exact hinv e he
      | some uid =>
        by_cases huid : uid ≠ ""
        · simp only [if_pos huid] at he
          have he2 : e ∈ setEntry pst.recentPicks uid
              ((s :: getUserRecentPicks pst uid).take maxRecentPicks) := by
            have : cleanupOldPicks (setEntry pst.recentPicks uid
                ((s :: getUserRecentPicks pst uid).take maxRecentPicks)) ⊆
                setEntry pst.recentPicks uid
                  ((s :: getUserRecentPicks pst uid).take maxRecentPicks) := by
              rw [cleanupOldPicks]
              split
              · exact List.take_subset _ _
              · exact fun _ h => h
            exact this he
          rcases mem_setEntry _ _ _ _ he2 with hmem | heq
          · exact hinv e hmem
          · rw [heq]
            exact le_trans (List.length_take_le _ _) (le_refl _)
        · simp only [if_neg huid] at he
          exact hinv e he

/-- A plain movie request with no minimum rating. -/
def configTrack : RandomPickerConfig :=
  { country := "us", showType := some "movie", excludeRecent := some true,
    minRating := none }

theorem C8_history_tracking_witness :
    getUserRecentPicks
        (discover pstEmpty configTrack (some "u1") [showA] [showA] 0 0).2
        "u1" = [showA] ∧
    (discover pstEmpty configC1 (some "u1") [showB40] [showB40] 0 0).2 =
      pstEmpty := by
  have h3A : filteredCandidates pstEmpty configTrack (some "u1") [showA] =
      [showA] := by decide
  have hstrictA : selectRandomShow pstEmpty configTrack (some "u1") [showA] 0 =
      some showA := by
    simp [selectRandomShow, h3A, weightedRandomSelection_singleton]
  have h3B : filteredCandidates pstEmpty (relaxConfig configC1) (some "u1")
      [showB40] = [showB40] := by decide
  have hfallB : selectRandomShow pstEmpty (relaxConfig configC1) (some "u1")
      [showB40] 0 = some showB40 := by
    simp [selectRandomShow, h3B, weightedRandomSelection_singleton]
  constructor
  · have h := (C8_history_tracking.1 pstEmpty configTrack
      "u1" [showA] [showA] 0 0 showA (by decide) (by decide) hstrictA).1
    rw [h]
    rfl
  · exact C8_history_tracking.2.1 pstEmpty configC1 (some "u1") [showB40]
      [showB40] 0 0 showB40 (by decide) hfallB

/-- C9: the code keeps the FIRST 500 entries of the pick-history map in
insertion order — the oldest users — and deletes everything after them,
including the most recently added user; the in-source comment ("Keep only
most recent 500 users") and the spec ("oldest users dropped") both say the
opposite. -/
theorem C9_cleanup_keeps_oldest (m : List (String × List NetflixShow))
    (k : String) (p : List NetflixShow) (hm : m.length = 1000)
    (hk : (k, p) ∉ m) :
    cleanupOldPicks (m ++ [(k, p)]) = m.take 500 ∧
    (k, p) ∉ cleanupOldPicks (m ++ [(k, p)]) ∧
    ∀ e ∈ m.take 500, e ∈ cleanupOldPicks (m ++ [(k, p)]) := by
  have hgt : 1000 < (m ++ [(k, p)]).length := by
    simp [hm]
  have htake : (m ++ [(k, p)]).take 500 = m.take 500 :=
    List.take_append_of_le_length (by omega)
  have heq : cleanupOldPicks (m ++ [(k, p)]) = m.take 500 := by
    rw [cleanupOldPicks, if_pos hgt, htake]
  refine ⟨heq, ?_, ?_⟩
  · rw [heq]
    intro hmem
    exact hk (List.take_subset _ _ hmem)
  · intro e he
    rw [heq]
    exact he

/-- The 1000 previously known users, in insertion order. -/
def users1000 : List (String × List NetflixShow) :=
  (List.range 1000).map (fun i => ("u" ++ toString i, []))

set_option maxRecDepth 8000 in
theorem C9_cleanup_keeps_oldest_witness :
    cleanupOldPicks (users1000 ++ [("z", [])]) = users1000.take 500 ∧
    ("z", ([] : List NetflixShow)) ∉
      cleanupOldPicks (users1000 ++ [("z", [])]) := by
  have h := C9_cleanup_keeps_oldest users1000 "z" []
    (by simp [users1000]) (by decide)
  exact ⟨h.1, h.2.1⟩

/-- The 19 rating-0 filler titles of the C3 pool. -/
def junksC3 : List NetflixShow :=
  (List.range 19).map junkShow

/-- A 21-title `us-movie` pool: the just-picked `showX`, 19 rating-0 fillers,
and the eligible `showY` — one more title than the 20-element sample
`getRandomShows` returns. -/
def poolC3 : CachePool :=
  { shows := showX :: (junksC3 ++ [showY]), lastUpdate := 0, country := "us",
    showType := "movie" }

/-- The cache holding `poolC3`, fresh at time 0. -/
def cacheC3 : CacheState :=
  { pools := [("us-movie", poolC3)], isRefreshing := [], metadata := metadata0 }

/-- A shuffle of `poolC3.shows` that happens to leave `showY` last, so the
20-element sample misses it (the identity permutation). -/
def shuffledC3 : List NetflixShow :=
  showX :: (junksC3 ++ [showY])

/-- User `u1` immediately after being shown `showX`. -/
def pstX : PickerState := { recentPicks := [("u1", [showX])] }

/-- C3, counterexample: immediately after `u1` picked `showX`, a
`discover(country=us, type=movie, userId=u1, excludeRecent=true)` call
returns `showX` again even though the eligible `showY` sits in the pool: the
20-element sample misses `showY`, the strict pass then filters everything
out, and the relaxed fallback — which drops the recent-pick exclusion —
hands `showX` back. -/
theorem C3_counterexample :
    showY ∈ poolC3.shows ∧ hasQuality showY = true ∧ showY.id ≠ showX.id ∧
    getUserRecentPicks pstX "u1" = [showX] ∧
    shuffledC3.Perm poolC3.shows ∧
    (discoverFromCache defaultCacheConfig cacheC3 pstX configTrack
        (some "u1") 0 shuffledC3 [] shuffledC3 [] 0 0).1 =
      Except.ok (showX, false) := by
  have hg : gatherCandidates defaultCacheConfig cacheC3 0 configTrack
      shuffledC3 [] = showX :: junksC3 := by decide
  have hstrict : selectRandomShow pstX configTrack (some "u1")
      (showX :: junksC3) 0 = none := by decide
  have h3 : filteredCandidates pstX (relaxConfig configTrack) (some "u1")
      (showX :: junksC3) = [showX] := by decide
  have hfall : selectRandomShow pstX (relaxConfig configTrack) (some "u1")
      (showX :: junksC3) 0 = some showX := by
    simp [selectRandomShow, h3, weightedRandomSelection_singleton]
  refine ⟨by decide, by decide, by decide, by decide, List.Perm.refl _, ?_⟩
  rw [discoverFromCache, hg]
  simp [discover, hstrict, hfall]

/-- C3, amended: the recent-pick guarantee holds exactly for strict-pass
picks: whenever the strict `selectRandomShow` pass (with `excludeRecent`
effectively on and a truthy user) returns a show, that show's id differs from
every title in the user's recent history, and `discover` returns it; the
relaxed fallback pass, by contrast, drops the exclusion and may return a
recent pick (see the counterexample). -/
theorem C3_strict_pass_excludes_recent (pst : PickerState)
    (config : RandomPickerConfig) (uid : String)
    (cands1 cands2 : List NetflixShow) (r1 r2 : ℚ) (s : NetflixShow)
    (hex : config.excludeRecent.getD true = true) (huid : uid ≠ "")
    (hsel : selectRandomShow pst config (some uid) cands1 r1 = some s) :
    (∀ t ∈ getUserRecentPicks pst uid, s.id ≠ t.id) ∧
    (discover pst config (some uid) cands1 cands2 r1 r2).1 =
      Except.ok (s, true) := by
  constructor
  · simp only [selectRandomShow] at hsel
    split at hsel
    · exact Option.noConfusion hsel
    · split at hsel
      · exact Option.noConfusion hsel
      · have hmem := weightedRandomSelection_mem _ _ _ hsel
        have hcond : (config.excludeRecent.getD true &&
            decide (uid ≠ "")) = true := by
          rw [hex]
          simp [huid]
        simp only [filteredCandidates] at hmem
        rw [if_pos hcond] at hmem
        have h2 := (List.mem_filter.mp hmem).1
        have hpred := (List.mem_filter.mp h2).2
        have hcontains : ((getUserRecentPicks pst uid).map
            (fun s => s.id)).contains s.id = false := by
          rwa [Bool.not_eq_true'] at hpred
        intro t ht heq
        simp at hcontains
        exact hcontains t ht heq.symm
  · simp [discover, hsel]

theorem C3_strict_pass_excludes_recent_witness :
    (∀ t ∈ getUserRecentPicks pstX "u1", showY.id ≠ t.id) ∧
    (discover pstX configTrack (some "u1") [showY] [] 0 0).1 =
      Except.ok (showY, true) := by
  have h3 : filteredCandidates pstX configTrack (some "u1") [showY] =
      [showY] := by decide
  have hsel : selectRandomShow pstX configTrack (some "u1") [showY] 0 =
      some showY := by
    simp [selectRandomShow, h3, weightedRandomSelection_singleton]
  exact C3_strict_pass_excludes_recent pstX configTrack "u1" [showY] [] 0 0
    showY rfl (by decide) hsel

/-- C4: after any `refreshPool` call, every pool's title list is at most
`poolSize` long (given it was before), and every pool entry is either an
untouched previous entry or holds exactly the freshly collected list truncated
to `poolSize` — a wholesale replacement, never a merge of old and new. -/
theorem C4_pool_bound (cfg : CacheConfig) (st : CacheState)
    (key country : String) (showType : Option String) (now : ℤ)
    (pages : List PageResult) :
    ((∀ e ∈ st.pools, e.2.shows.length ≤ cfg.poolSize) →
      ∀ e ∈ (refreshPool cfg st key country showType now pages).1.pools,
        e.2.shows.length ≤ cfg.poolSize) ∧
    (∀ e ∈ (refreshPool cfg st key country showType now pages).1.pools,
      e ∈ st.pools ∨
        e.2.shows = (collectShows cfg pages 0 []).1.take cfg.poolSize) := by
  have hpools :
      (refreshPool cfg st key country showType now pages).1.pools = st.pools ∨
      (refreshPool cfg st key country showType now pages).1.pools =
        setEntry st.pools key
          { shows := (collectShows cfg pages 0 []).1.take cfg.poolSize,
            lastUpdate := now, country := country,
            showType := optStrOr showType "any" } := by
    rw [refreshPool]
    split
    · exact Or.inl rfl
    · dsimp only
      split
      · exact Or.inl rfl
      · exact Or.inr rfl
  constructor
  · intro hbound e he
    rcases hpools with hp | hp
    · exact hbound e (hp ▸ he)
    · rw [hp] at he
      rcases mem_setEntry _ _ _ _ he with hmem | heq
      · exact hbound e hmem
      · rw [heq]
        simp [min_le_left]
  · intro e he
    rcases hpools with hp | hp
    · exact Or.inl (hp ▸ he)
    · rw [hp] at he
      rcases mem_setEntry _ _ _ _ he with hmem | heq
      · exact Or.inl hmem
      · exact Or.inr (by rw [heq])

/-- A fresh cache with no pools and nothing in flight. -/
def cacheEmpty : CacheState :=
  { pools := [], isRefreshing := [], metadata := metadata0 }

theorem C4_pool_bound_witness :
    ∀ e ∈ (refreshPool defaultCacheConfig cacheEmpty "us-movie" "us"
        (some "movie") 0 []).1.pools,
      e.2.shows.length ≤ defaultCacheConfig.poolSize :=
  (C4_pool_bound defaultCacheConfig cacheEmpty "us-movie" "us" (some "movie")
    0 []).1 (by simp [cacheEmpty])

/-- C5: a running `refreshPool` installs the collected list (truncated) with
the new timestamp exactly when at least one valid title was collected; with
zero collected titles the pool map and the metadata are left completely
unchanged; and a page fetch that throws ends the pass but keeps every title
collected before it (pages after the first error are never consulted). -/
theorem C5_refresh_updates_iff (cfg : CacheConfig) (st : CacheState)
    (key country : String) (showType : Option String) (now : ℤ)
    (pages : List PageResult) (hkey : key ∉ st.isRefreshing) :
    ((collectShows cfg pages 0 []).1 ≠ [] →
      lookupEntry (refreshPool cfg st key country showType now pages).1.pools
          key =
        some { shows := (collectShows cfg pages 0 []).1.take cfg.poolSize,
               lastUpdate := now, country := country,
               showType := optStrOr showType "any" }) ∧
    ((collectShows cfg pages 0 []).1 = [] →
      (refreshPool cfg st key country showType now pages).1.pools = st.pools ∧
      (refreshPool cfg st key country showType now pages).1.metadata =
        st.metadata) ∧
    (∀ good rest, pages = good ++ Except.error () :: rest →
      (collectShows cfg pages 0 []).1 = (collectShows cfg good 0 []).1) := by
  refine ⟨?_, ?_, ?_⟩
  · intro hne
    rw [refreshPool, if_neg hkey]
    dsimp only
    rw [if_neg (by simpa using hne)]
    exact lookupEntry_setEntry_self _ _ _
  · intro hnil
    rw [refreshPool, if_neg hkey]
    dsimp only
    rw [if_pos (by simpa using hnil)]
    exact ⟨rfl, rfl⟩
  · intro good rest hp
    rw [hp]
    exact collectShows_stops_at_error cfg good rest 0 []

/-- An upstream page holding one valid title, with more pages advertised. -/
def pageW1 : SearchResult :=
  { shows := [showA], hasMore := true, nextCursor := some "cur1" }

/-- A page that would hold another title, but is never reached because the
fetch before it throws. -/
def pageW2 : SearchResult :=
  { shows := [showB], hasMore := false, nextCursor := none }

/-- One good page, then a throwing fetch, then an unreachable page. -/
def pagesW : List PageResult :=
  [Except.ok pageW1, Except.error (), Except.ok pageW2]

theorem C5_refresh_updates_iff_witness :
    lookupEntry (refreshPool defaultCacheConfig cacheEmpty "us-movie" "us"
        (some "movie") 0 pagesW).1.pools "us-movie" =
      some { shows := (collectShows defaultCacheConfig pagesW 0 []).1.take
               defaultCacheConfig.poolSize,
             lastUpdate := 0, country := "us",
             showType := optStrOr (some "movie") "any" } ∧
    (collectShows defaultCacheConfig pagesW 0 []).1 =
      (collectShows defaultCacheConfig [Except.ok pageW1] 0 []).1 := by
  have h := C5_refresh_updates_iff defaultCacheConfig cacheEmpty "us-movie"
    "us" (some "movie") 0 pagesW (by simp [cacheEmpty])
  exact ⟨h.1 (by decide), h.2.2 [Except.ok pageW1] [Except.ok pageW2] rfl⟩

/-- C6: a `refreshPool` call against a key already in flight is a complete
no-op (state unchanged, zero upstream pages fetched) — so of two interleaved
refreshes of one key, only the first fetches; and a refresh that does run
always removes its in-flight marker on exit, restoring the set exactly, for
every page oracle including erroring ones. -/
theorem C6_refresh_mutual_exclusion (cfg : CacheConfig) (st : CacheState)
    (key country : String) (showType : Option String) (now : ℤ)
    (pages pages2 : List PageResult) :
    (key ∈ st.isRefreshing →
      refreshPool cfg st key country showType now pages = (st, 0)) ∧
    (key ∉ st.isRefreshing →
      (refreshPool cfg st key country showType now pages).1.isRefreshing =
        st.isRefreshing) ∧
    (key ∉ st.isRefreshing →
      refreshPool cfg { st with isRefreshing := key :: st.isRefreshing } key
          country showType now pages2 =
        ({ st with isRefreshing := key :: st.isRefreshing }, 0)) := by
  refine ⟨?_, ?_, ?_⟩
  · intro h
    rw [refreshPool, if_pos h]
  · intro h
    rw [refreshPool, if_neg h]
    dsimp only
    split
    · exact List.erase_cons_head key st.isRefreshing
    · exact List.erase_cons_head key st.isRefreshing
  · intro h
    rw [refreshPool, if_pos (List.mem_cons_self key st.isRefreshing)]

/-- A cache in the middle of refreshing `us-movie`. -/
def cacheBusy : CacheState :=
  { pools := [], isRefreshing := ["us-movie"], metadata := metadata0 }

theorem C6_refresh_mutual_exclusion_witness :
    refreshPool defaultCacheConfig cacheBusy "us-movie" "us" (some "movie") 0
        pagesW = (cacheBusy, 0) ∧
    (refreshPool defaultCacheConfig cacheEmpty "us-movie" "us" (some "movie")
        0 pagesW).1.isRefreshing = cacheEmpty.isRefreshing := by
  have h := C6_refresh_mutual_exclusion defaultCacheConfig cacheBusy
    "us-movie" "us" (some "movie") 0 pagesW pagesW
  have h2 := C6_refresh_mutual_exclusion defaultCacheConfig cacheEmpty
    "us-movie" "us" (some "movie") 0 pagesW pagesW
  exact ⟨h.1 (by simp [cacheBusy]), h2.2.1 (by simp [cacheEmpty])⟩

/-- The `us-movie` pool refreshed at time 0 — expired by time 30000000 ms
(more than 6 hours later). -/
def poolExpired : CachePool :=
  { shows := [showX], lastUpdate := 0, country := "us", showType := "movie" }

/-- The cache holding only the expired pool, nothing in flight. -/
def cacheExpired : CacheState :=
  { pools := [("us-movie", poolExpired)], isRefreshing := [],
    metadata := metadata0 }

/-- C7, counterexample: a `getRandomShows` read against an expired pool does
return the empty "no result" — but it triggers no refresh at all (the method
has no refresh call on any path), contradicting the claim that every such
read triggers an asynchronous refresh of the pool. -/
theorem C7_counterexample :
    isPoolExpired defaultCacheConfig 30000000 poolExpired = true ∧
    getRandomShows defaultCacheConfig cacheExpired 30000000 "us"
        (some "movie") 20 [showX] = ([], false) := by
  exact ⟨by decide, by decide⟩

/-- C7, amended: no read blocks on a refresh (reads never change the pool
map, only hit/miss counters). `getRandomShow` on a missing, expired or empty
pool returns `none`, records a miss and starts a background refresh exactly
when the key is not already in flight; on a fresh but under-minimum pool it
still returns a show and starts a background refresh; but `getRandomShows`
(the bulk read the picker uses) returns `[]` on an expired or empty pool
without ever triggering a refresh. -/
theorem C7_read_refresh_behavior :
    (∀ (cfg : CacheConfig) (st : CacheState) (now : ℤ)
      (country : String) (showType : Option String) (i : ℕ)
      (pool : CachePool),
      lookupEntry st.pools (poolKey country showType) = some pool →
      (isPoolExpired cfg now pool = true ∨ pool.shows = []) →
      getRandomShow cfg st now country showType i =
        (none, recordMiss st,
          decide (poolKey country showType ∉ st.isRefreshing)) ∧
      (recordMiss st).pools = st.pools) ∧
    (∀ (cfg : CacheConfig) (st : CacheState) (now : ℤ)
      (country : String) (showType : Option String) (i : ℕ)
      (pool : CachePool),
      lookupEntry st.pools (poolKey country showType) = some pool →
      isPoolExpired cfg now pool = false → pool.shows ≠ [] →
      pool.shows.length < cfg.minPoolSize →
      getRandomShow cfg st now country showType i =
        (pool.shows.get? i, recordHit st,
          decide (poolKey country showType ∉ st.isRefreshing)) ∧
      (recordHit st).pools = st.pools) ∧
    (∀ (cfg : CacheConfig) (st : CacheState) (now : ℤ)
      (country : String) (showType : Option String) (count : ℕ)
      (shuffled : List NetflixShow) (pool : CachePool),
      lookupEntry st.pools (poolKey country showType) = some pool →
      (isPoolExpired cfg now pool = true ∨ pool.shows = []) →
      getRandomShows cfg st now country showType count shuffled =
        ([], false)) := by
  refine ⟨?_, ?_, ?_⟩
  · intro cfg st now country showType i pool hlook hbad
    have hcond : (isPoolExpired cfg now pool || pool.shows.isEmpty) = true := by
      rcases hbad with hb | hb
      · simp [hb]
      · simp [hb]
    refine ⟨?_, rfl⟩
    simp only [getRandomShow, hlook]
    rw [if_pos hcond]
  · intro cfg st now country showType i pool hlook hfresh hne hmin
    have hcond : (isPoolExpired cfg now pool || pool.shows.isEmpty) = false := by
      simp [hfresh, hne]
    refine ⟨?_, rfl⟩
    simp only [getRandomShow, hlook]
    rw [if_neg (by simp [hcond])]
    simp [hmin]
  · intro cfg st now country showType count shuffled pool hlook hbad
    have hcond : (isPoolExpired cfg now pool || pool.shows.isEmpty) = true := by
      rcases hbad with hb | hb
      · simp [hb]
      · simp [hb]
    simp only [getRandomShows, hlook]
    rw [if_pos hcond]

theorem C7_read_refresh_behavior_witness :
    getRandomShow defaultCacheConfig cacheExpired 30000000 "us" (some "movie")
        0 =
      (none, recordMiss cacheExpired,
        decide (poolKey "us" (some "movie") ∉ cacheExpired.isRefreshing)) ∧
    getRandomShows defaultCacheConfig cacheExpired 30000000 "us"
        (some "movie") 20 [showX] = ([], false) := by
  have h1 := (C7_read_refresh_behavior.1 defaultCacheConfig cacheExpired
    30000000 "us" (some "movie") 0 poolExpired (by decide)
    (Or.inl (by decide))).1
  have h3 := C7_read_refresh_behavior.2.2 defaultCacheConfig cacheExpired
    30000000 "us" (some "movie") 20 [showX] poolExpired (by decide)
    (Or.inl (by decide))
  exact ⟨h1, h3⟩

end NetPick
